import Mathlib

/-!
Verification of the subnet allocator in `src/subnet_finder.py`
(class `IncrementalSubnetFinder`).

IPv4 addresses are modelled as natural numbers below `2 ^ 32`.  The Python
value built by `ipaddress.ip_network(f"{ip}/{p}", strict=False)` is modelled
by `mkNetwork`, which masks the host bits away.  Python exceptions raised
inside `find_next_subnets` are modelled by the `PyError` inductive, with one
constructor per raise site.  The unbounded Python `while` loop is modelled by
the fuel-indexed `loopGo`; `find_next_subnets` runs it with fuel `count`,
which is always sufficient (see the termination theorem), and a `none`
result marks fuel exhaustion and never occurs.
-/

namespace SubnetFinder

/-- Size of the IPv4 address space, `2 ^ 32`. -/
def addrSpace : Nat := 2 ^ 32

/-- Number of addresses in a network of the given prefix length. -/
def blockSize (p : Nat) : Nat := 2 ^ (32 - p)

/-- An IPv4 network (CIDR block): base (network) address and prefix length,
mirroring `ipaddress.IPv4Network`. -/
structure Block where
  network : Nat
  prefixlen : Nat
  deriving Repr, DecidableEq

/-- The `num_addresses` attribute of `ipaddress.IPv4Network`. -/
def Block.num_addresses (b : Block) : Nat := blockSize b.prefixlen

/-- The `broadcast_address` attribute: the last address of the block. -/
def Block.broadcast (b : Block) : Nat := b.network + b.num_addresses - 1

/-- Model of `ipaddress.ip_network(f"{ip}/{p}", strict=False)`: the host
bits of `ip` are masked away, so the base is `ip` rounded down to a
multiple of `blockSize p`. -/
def mkNetwork (ip p : Nat) : Block := ⟨ip - ip % blockSize p, p⟩

/-- The `a.subnet_of(b)` predicate of `ipaddress`: `b` covers `a`. -/
def Block.subnet_of (a b : Block) : Bool :=
  decide (b.network ≤ a.network) && decide (a.broadcast ≤ b.broadcast)

/-- Two blocks overlap when some address lies in both ranges. -/
def Block.overlaps (a b : Block) : Bool :=
  decide (max a.network b.network ≤ min a.broadcast b.broadcast)

/-- The `SubnetInfo` dataclass of the source.  The Python string fields hold
decimal-dotted renderings of addresses; they are modelled numerically
(`cidr_block` as the block itself). -/
structure SubnetInfo where
  cidr_block : Block
  network_address : Nat
  broadcast_address : Nat
  first_usable : Nat
  last_usable : Nat
  usable_ips : Int
  suggested_az : String
  deriving Repr, DecidableEq

/-- Python exceptions that `find_next_subnets` can raise, one constructor
per raise site. -/
inductive PyError where
  /-- The `ValueError` raised when a candidate is not a subnet of the VPC
  network ("No more space in VPC CIDR ... for /p subnets"); it is caught
  and re-raised as "Error calculating next subnet: ...". -/
  | noMoreSpace
  /-- The `ValueError` raised by `ip_network` when the prefix length is not
  a valid IPv4 netmask (above 32); also re-raised wrapped. -/
  | invalidNetmask
  /-- The `AddressValueError` (a subclass of `ValueError`) raised when
  `IPv4Address` arithmetic leaves the range `[0, 2 ^ 32)`. -/
  | addressOutOfRange
  /-- The `ZeroDivisionError` raised by `len(available_subnets) %
  len(self.available_azs)` when the availability-zone list is empty. -/
  | zeroDivisionError
  deriving Repr, DecidableEq

/-- Model of `_find_last_ip`: the broadcast address of the last subnet of
the existing list, or `none` when the list is empty. -/
def find_last_ip (existing : List Block) : Option Nat :=
  match existing.getLast? with
  | none => none
  | some last_subnet => some last_subnet.broadcast

/-- The scan start address computed on lines 62-69 of the source: the
network address of the parent when there are no existing subnets, otherwise
one past the broadcast address of the last existing subnet. -/
def scan_start (vpc : Block) (existing : List Block) : Nat :=
  match find_last_ip existing with
  | none => vpc.network
  | some last_ip => last_ip + 1

/-- One iteration of the `while` loop body (source lines 75-95), at scan
pointer `current` with `idx` candidates already accepted.  Returns the new
`SubnetInfo` together with the advanced scan pointer, or the exception the
iteration raises.  The error checks appear in the evaluation order of the Python code:
netmask validation in `ip_network`, the containment test, then (while the
`SubnetInfo` arguments are evaluated) the `first_usable` and `last_usable`
address arithmetic, the modulo by the zone-list length, and finally the
scan-pointer advance. -/
def loopBody (vpc : Block) (azs : List String) (np : Nat) (current idx : Nat) :
    Except PyError (SubnetInfo × Nat) :=
  if 32 < np then Except.error PyError.invalidNetmask
  else
    let next_net := mkNetwork current np
    if next_net.subnet_of vpc then
      if addrSpace ≤ next_net.network + 1 then Except.error PyError.addressOutOfRange
      else if next_net.broadcast = 0 then Except.error PyError.addressOutOfRange
      else
        match azs with
        | [] => Except.error PyError.zeroDivisionError
        | _ :: _ =>
          let info : SubnetInfo :=
            { cidr_block := next_net
              network_address := next_net.network
              broadcast_address := next_net.broadcast
              first_usable := next_net.network + 1
              last_usable := next_net.broadcast - 1
              usable_ips := (next_net.num_addresses : Int) - 2
              suggested_az := azs.getD (idx % azs.length) "" }
          if addrSpace ≤ next_net.broadcast + 1 then Except.error PyError.addressOutOfRange
          else Except.ok (info, next_net.broadcast + 1)
    else Except.error PyError.noMoreSpace

/-- The `while len(available_subnets) < count` loop (source lines 74-97),
indexed by fuel.  `none` marks fuel exhaustion; `find_next_subnets` runs
the loop with fuel `count`, which always suffices because every iteration
either appends one candidate or raises. -/
def loopGo (vpc : Block) (azs : List String) (np count : Nat) :
    Nat → Nat → List SubnetInfo → Option (Except PyError (List SubnetInfo))
  | 0, _, acc =>
      if acc.length < count then none else some (Except.ok acc)
  | fuel + 1, current, acc =>
      if acc.length < count then
        match loopBody vpc azs np current acc.length with
        | Except.error e => some (Except.error e)
        | Except.ok (info, next) =>
            loopGo vpc azs np count fuel next (acc ++ [info])
      else some (Except.ok acc)

/-- Model of `find_next_subnets(new_prefix=np, count)`: compute the scan
start (raising when `last_ip + 1` leaves the address space, as
`IPv4Address.__add__` does on line 69), then run the scan loop. -/
def find_next_subnets (vpc : Block) (existing : List Block) (azs : List String)
    (np count : Nat) : Option (Except PyError (List SubnetInfo)) :=
  match find_last_ip existing with
  | none => loopGo vpc azs np count count (scan_start vpc existing) []
  | some last_ip =>
      if addrSpace ≤ last_ip + 1 then some (Except.error PyError.addressOutOfRange)
      else loopGo vpc azs np count count (scan_start vpc existing) []

/-! Concrete blocks used in the evaluation theorems.  `167772160` is
10.0.0.0, so `exParent` is 10.0.0.0/16, `exAlloc25` is 10.0.0.0/25, and the
`s24_i` records are the first three /24 children of the parent
(10.0.0.0/24, 10.0.1.0/24, 10.0.2.0/24) as `find_next_subnets` builds
them. -/

/-- The parent block 10.0.0.0/16. -/
def exParent : Block := ⟨167772160, 16⟩

/-- The allocated block 10.0.0.0/25 (last address 10.0.0.127 = 167772287). -/
def exAlloc25 : Block := ⟨167772160, 25⟩

/-- Candidate 10.0.0.0/24 with round-robin label "a". -/
def s24_0 : SubnetInfo :=
  ⟨⟨167772160, 24⟩, 167772160, 167772415, 167772161, 167772414, 254, "a"⟩

/-- Candidate 10.0.1.0/24 with round-robin label "b". -/
def s24_1 : SubnetInfo :=
  ⟨⟨167772416, 24⟩, 167772416, 167772671, 167772417, 167772670, 254, "b"⟩

/-- Candidate 10.0.2.0/24 with round-robin label "c". -/
def s24_2 : SubnetInfo :=
  ⟨⟨167772672, 24⟩, 167772672, 167772927, 167772673, 167772926, 254, "c"⟩

/-- The /32 candidate at 10.0.0.0 exactly as the code builds it: first
usable 10.0.0.1, last usable 9.255.255.255, usable count -1. -/
def s32bad : SubnetInfo :=
  ⟨⟨167772160, 32⟩, 167772160, 167772160, 167772161, 167772159, -1, "a"⟩

/-- The allocated block 10.0.0.0/24, used in the scan-start witness. -/
def exB0 : Block := ⟨167772160, 24⟩

/-- The allocated block 10.0.1.0/24, used in the scan-start witness. -/
def exB1 : Block := ⟨167772416, 24⟩

/-- C1: with parent 10.0.0.0/16, allocated [10.0.0.0/25], target prefix
length 24 and count 1, the code returns the candidate 10.0.0.0/24, whose
range intersects the allocated 10.0.0.0/25: flooring the scan pointer
10.0.0.128 to the /24 boundary lands the candidate inside an existing
allocation, and no re-check against the allocation list is performed.  This
refutes the claimed non-overlap property at this input. -/
theorem overlap_bug_eval :
    find_next_subnets exParent [exAlloc25] ["a"] 24 1 = some (Except.ok [s24_0]) ∧
    Block.overlaps s24_0.cidr_block exAlloc25 = true := by
  constructor
  · rfl
  · rfl

/-- C2: two precondition violations that the code does not report as a
distinguishable InvalidRequest: with `count = 0` the call succeeds with
zero candidates (no error at all), and with target prefix length 8 smaller
than the parent value 16 the call raises exactly the exhaustion-path
`ValueError` ("No more space in VPC CIDR ..."), the same error kind as
genuine exhaustion. -/
theorem invalid_request_bug_eval :
    find_next_subnets exParent [] ["a"] 24 0 = some (Except.ok []) ∧
    find_next_subnets exParent [] ["a"] 8 1 =
      some (Except.error PyError.noMoreSpace) := by
  constructor
  · rfl
  · rfl

/-- C3: with target prefix length 32 the code applies the generic
base+1 / broadcast-1 / size-2 arithmetic: the returned candidate has
usable-address count -1 (negative, not the block size 1), and its first and
last usable addresses differ from the single address of the block. -/
theorem usable_count_bug_eval :
    find_next_subnets exParent [] ["a"] 32 1 = some (Except.ok [s32bad]) ∧
    s32bad.usable_ips < 0 ∧
    s32bad.first_usable ≠ s32bad.network_address ∧
    s32bad.last_usable ≠ s32bad.network_address := by
  refine ⟨rfl, ?_, ?_, ?_⟩ <;> decide

/-- C9: with parent 10.0.0.0/16, no existing allocations, target prefix
length 24, count 3 and labels ["a", "b", "c"], the call returns exactly
10.0.0.0/24, 10.0.1.0/24, 10.0.2.0/24 in that order, labelled "a", "b",
"c" by round-robin on the candidate index. -/
theorem scenario_one_eval :
    find_next_subnets exParent [] ["a", "b", "c"] 24 3 =
      some (Except.ok [s24_0, s24_1, s24_2]) := by
  rfl

lemma blockSize_pos (p : Nat) : 0 < blockSize p := by
  unfold blockSize
  positivity

lemma network_le_broadcast (b : Block) : b.network ≤ b.broadcast := by
  have h := blockSize_pos b.prefixlen
  unfold Block.broadcast Block.num_addresses
  omega

lemma mkNetwork_network_mod (ip p : Nat) :
    (mkNetwork ip p).network % blockSize p = 0 := by
  show (ip - ip % blockSize p) % blockSize p = 0
  have h := Nat.div_add_mod ip (blockSize p)
  have hb : ip - ip % blockSize p = blockSize p * (ip / blockSize p) := by omega
  rw [hb, Nat.mul_mod_right]

lemma mkNetwork_broadcast_succ (ip p : Nat) :
    (mkNetwork ip p).broadcast + 1 = (mkNetwork ip p).network + blockSize p := by
  have h := blockSize_pos p
  show (mkNetwork ip p).network + blockSize p - 1 + 1 = _
  omega

lemma subnet_of_iff (a b : Block) :
    a.subnet_of b = true ↔ b.network ≤ a.network ∧ a.broadcast ≤ b.broadcast := by
  simp [Block.subnet_of]

lemma loopBody_ok_elim {vpc : Block} {azs : List String} {np current idx : Nat}
    {info : SubnetInfo} {next : Nat}
    (h : loopBody vpc azs np current idx = Except.ok (info, next)) :
    info.network_address = (mkNetwork current np).network ∧
    info.broadcast_address = (mkNetwork current np).broadcast ∧
    (mkNetwork current np).subnet_of vpc = true ∧
    next = (mkNetwork current np).broadcast + 1 := by
  by_cases h32 : 32 < np
  · simp [loopBody, h32] at h
  · by_cases hsub : (mkNetwork current np).subnet_of vpc
    · by_cases hfu : addrSpace ≤ (mkNetwork current np).network + 1
      · simp [loopBody, h32, hsub, hfu] at h
      · by_cases hlu : (mkNetwork current np).broadcast = 0
        · simp [loopBody, h32, hsub, hfu, hlu] at h
        · cases azs with
          | nil => simp [loopBody, h32, hsub, hfu, hlu] at h
          | cons a rest =>
            by_cases hadv : addrSpace ≤ (mkNetwork current np).broadcast + 1
            · simp [loopBody, h32, hsub, hfu, hlu, hadv] at h
            · have hval : loopBody vpc (a :: rest) np current idx =
                  Except.ok
                    ({ cidr_block := mkNetwork current np
                       network_address := (mkNetwork current np).network
                       broadcast_address := (mkNetwork current np).broadcast
                       first_usable := (mkNetwork current np).network + 1
                       last_usable := (mkNetwork current np).broadcast - 1
                       usable_ips := ((mkNetwork current np).num_addresses : Int) - 2
                       suggested_az := (a :: rest).getD (idx % (a :: rest).length) "" },
                     (mkNetwork current np).broadcast + 1) := by
                simp [loopBody, h32, hsub, hfu, hlu, hadv]
              rw [hval] at h
              simp only [Except.ok.injEq, Prod.mk.injEq] at h
              obtain ⟨h1, h2⟩ := h
              subst h1
              subst h2
              exact ⟨rfl, rfl, hsub, rfl⟩
    · simp [loopBody, h32, hsub] at h

lemma loopGo_ok_spec (vpc : Block) (azs : List String) (np count : Nat) :
    ∀ (fuel current : Nat) (acc l : List SubnetInfo),
      loopGo vpc azs np count fuel current acc = some (Except.ok l) →
      ∃ t, l = acc ++ t ∧ l.length = max acc.length count ∧
        (∀ i ∈ t,
          i.network_address % blockSize np = 0 ∧
          vpc.network ≤ i.network_address ∧
          i.broadcast_address ≤ vpc.broadcast ∧
          i.broadcast_address + 1 = i.network_address + blockSize np ∧
          current ≤ i.broadcast_address) ∧
        List.Pairwise (fun a b => a.network_address < b.network_address) t := by
  intro fuel
  induction fuel with
  | zero =>
    intro current acc l h
    simp only [loopGo] at h
    split at h
    · simp at h
    · simp only [Option.some.injEq, Except.ok.injEq] at h
      subst h
      refine ⟨[], by simp, by simp; omega, by simp, List.Pairwise.nil⟩
  | succ f ih =>
    intro current acc l h
    simp only [loopGo] at h
    split at h
    · split at h
      · simp at h
      · rename_i info next hb
        obtain ⟨t, hl, hlen, hP, hpw⟩ := ih next (acc ++ [info]) l h
        obtain ⟨hna, hba, hsub, hnext⟩ := loopBody_ok_elim hb
        obtain ⟨hcov1, hcov2⟩ := (subnet_of_iff _ _).mp hsub
        have hs : 0 < blockSize np := blockSize_pos np
        have hmod := mkNetwork_network_mod current np
        have hbase : (mkNetwork current np).network = current - current % blockSize np := rfl
        have hrlt : current % blockSize np < blockSize np := Nat.mod_lt _ hs
        have hrle : current % blockSize np ≤ current := Nat.mod_le _ _
        have hbc1 := mkNetwork_broadcast_succ current np
        refine ⟨info :: t, ?_, ?_, ?_, ?_⟩
        · rw [hl]
          simp
        · rw [hlen]
          simp only [List.length_append, List.length_cons, List.length_nil]
          omega
        · intro i hi
          rcases List.mem_cons.mp hi with rfl | hit
          · refine ⟨?_, ?_, ?_, ?_, ?_⟩
            · rw [hna]; exact hmod
            · rw [hna]; exact hcov1
            · rw [hba]; exact hcov2
            · rw [hba, hna]; exact hbc1
            · rw [hba]; omega
          · obtain ⟨p1, p2, p3, p4, p5⟩ := hP i hit
            exact ⟨p1, p2, p3, p4, by omega⟩
        · refine List.pairwise_cons.mpr ⟨?_, hpw⟩
          intro b hbmem
          obtain ⟨q1, q2, q3, q4, q5⟩ := hP b hbmem
          rw [hna]
          omega
    · simp only [Option.some.injEq, Except.ok.injEq] at h
      subst h
      refine ⟨[], by simp, by simp; omega, by simp, List.Pairwise.nil⟩

lemma find_next_subnets_ok_elim {vpc : Block} {existing : List Block}
    {azs : List String} {np count : Nat} {l : List SubnetInfo}
    (h : find_next_subnets vpc existing azs np count = some (Except.ok l)) :
    ∃ start, loopGo vpc azs np count count start [] = some (Except.ok l) := by
  unfold find_next_subnets at h
  split at h
  · exact ⟨_, h⟩
  · split at h
    · simp at h
    · exact ⟨_, h⟩

/-- C4: the call has no partial success: whenever it returns a result, that
result is either a success carrying exactly `count` candidates or an error
carrying none. -/
theorem count_all_or_nothing (vpc : Block) (existing : List Block)
    (azs : List String) (np count : Nat) (r : Except PyError (List SubnetInfo))
    (h : find_next_subnets vpc existing azs np count = some r) :
    (∃ l, r = Except.ok l ∧ l.length = count) ∨ (∃ e, r = Except.error e) := by
  cases r with
  | error e => exact Or.inr ⟨e, rfl⟩
  | ok l =>
    refine Or.inl ⟨l, rfl, ?_⟩
    obtain ⟨start, hg⟩ := find_next_subnets_ok_elim h
    obtain ⟨t, hl, hlen, -, -⟩ := loopGo_ok_spec vpc azs np count count start [] l hg
    simp only [List.length_nil] at hlen
    omega

/-- Witness for the all-or-nothing count theorem at a concrete input. -/
theorem count_all_or_nothing_witness :
    (∃ l, (Except.ok [s24_0, s24_1] : Except PyError (List SubnetInfo)) = Except.ok l ∧
      l.length = 2) ∨
    (∃ e, (Except.ok [s24_0, s24_1] : Except PyError (List SubnetInfo)) = Except.error e) :=
  count_all_or_nothing exParent [] ["a", "b", "c"] 24 2 (Except.ok [s24_0, s24_1]) rfl

/-- C5: every candidate of a successful call lies entirely within the parent
block: its network and broadcast addresses both fall in the address
range of the parent. -/
theorem containment_in_parent (vpc : Block) (existing : List Block)
    (azs : List String) (np count : Nat) (l : List SubnetInfo)
    (h : find_next_subnets vpc existing azs np count = some (Except.ok l)) :
    ∀ info ∈ l, vpc.network ≤ info.network_address ∧
      info.network_address ≤ vpc.broadcast ∧
      vpc.network ≤ info.broadcast_address ∧
      info.broadcast_address ≤ vpc.broadcast := by
  obtain ⟨start, hg⟩ := find_next_subnets_ok_elim h
  obtain ⟨t, hl, -, hP, -⟩ := loopGo_ok_spec vpc azs np count count start [] l hg
  intro info hi
  have hit : info ∈ t := by
    rw [hl, List.nil_append] at hi
    exact hi
  obtain ⟨-, p2, p3, p4, -⟩ := hP info hit
  have hs : 0 < blockSize np := blockSize_pos np
  exact ⟨p2, by omega, by omega, p3⟩

/-- Witness for the containment theorem at a concrete input. -/
theorem containment_in_parent_witness :
    exParent.network ≤ s24_0.network_address ∧
      s24_0.network_address ≤ exParent.broadcast ∧
      exParent.network ≤ s24_0.broadcast_address ∧
      s24_0.broadcast_address ≤ exParent.broadcast :=
  containment_in_parent exParent [] ["a"] 24 1 [s24_0] rfl s24_0 (by simp)

/-- C7: the candidates of a successful call are strictly increasing by base
address. -/
theorem candidates_strict_mono (vpc : Block) (existing : List Block)
    (azs : List String) (np count : Nat) (l : List SubnetInfo)
    (h : find_next_subnets vpc existing azs np count = some (Except.ok l)) :
    List.Pairwise (fun a b => a.network_address < b.network_address) l := by
  obtain ⟨start, hg⟩ := find_next_subnets_ok_elim h
  obtain ⟨t, hl, -, -, hpw⟩ := loopGo_ok_spec vpc azs np count count start [] l hg
  rw [hl, List.nil_append]
  exact hpw

/-- Witness for the strict-ordering theorem at a concrete input. -/
theorem candidates_strict_mono_witness :
    List.Pairwise (fun a b => a.network_address < b.network_address) [s24_0, s24_1] :=
  candidates_strict_mono exParent [] ["a", "b", "c"] 24 2 [s24_0, s24_1] rfl

/-- C8: every candidate of a successful call is aligned: its base address
is a multiple of the block size `2 ^ (32 - np)`. -/
theorem candidates_aligned (vpc : Block) (existing : List Block)
    (azs : List String) (np count : Nat) (l : List SubnetInfo)
    (h : find_next_subnets vpc existing azs np count = some (Except.ok l)) :
    ∀ info ∈ l, info.network_address % blockSize np = 0 := by
  obtain ⟨start, hg⟩ := find_next_subnets_ok_elim h
  obtain ⟨t, hl, -, hP, -⟩ := loopGo_ok_spec vpc azs np count count start [] l hg
  intro info hi
  have hit : info ∈ t := by
    rw [hl, List.nil_append] at hi
    exact hi
  exact (hP info hit).1

/-- Witness for the alignment theorem at a concrete input. -/
theorem candidates_aligned_witness :
    s24_0.network_address % blockSize 24 = 0 :=
  candidates_aligned exParent [] ["a"] 24 1 [s24_0] rfl s24_0 (by simp)

lemma loopGo_total (vpc : Block) (azs : List String) (np count : Nat) :
    ∀ (fuel current : Nat) (acc : List SubnetInfo), count ≤ fuel + acc.length →
      (loopGo vpc azs np count fuel current acc).isSome = true := by
  intro fuel
  induction fuel with
  | zero =>
    intro current acc hle
    simp only [loopGo]
    split
    · exfalso; omega
    · rfl
  | succ f ih =>
    intro current acc hle
    simp only [loopGo]
    split
    · split
      · rfl
      · apply ih
        simp only [List.length_append, List.length_cons, List.length_nil]
        omega
    · rfl

lemma overlaps_false_of_le {a b : Block} (hov : Block.overlaps a b = false)
    (hle : a.network ≤ b.network) : a.broadcast < b.network := by
  have hb := network_le_broadcast b
  simp only [Block.overlaps, decide_eq_false_iff_not, not_le] at hov
  omega

lemma broadcast_le_of_getLast : ∀ (l : List Block) (m : Block),
    l.getLast? = some m →
    List.Pairwise (fun a b => a.network ≤ b.network) l →
    List.Pairwise (fun a b => Block.overlaps a b = false) l →
    ∀ b ∈ l, b.broadcast ≤ m.broadcast := by
  intro l
  induction l with
  | nil =>
    intro m hm
    simp at hm
  | cons a rest ih =>
    intro m hm hsort hdisj b hb
    cases rest with
    | nil =>
      have hba : b = a := by simpa using hb
      have ham : a = m := by simpa using hm
      subst hba
      subst ham
      exact Nat.le_refl _
    | cons c rest2 =>
      rw [List.getLast?_cons_cons] at hm
      rcases List.mem_cons.mp hb with rfl | hb2
      · have hmem : m ∈ c :: rest2 := List.mem_of_getLast?_eq_some hm
        have hsa := (List.pairwise_cons.mp hsort).1 m hmem
        have hda := (List.pairwise_cons.mp hdisj).1 m hmem
        exact Nat.le_of_lt
          (Nat.lt_of_lt_of_le (overlaps_false_of_le hda hsa) (network_le_broadcast m))
      · exact ih m hm (List.pairwise_cons.mp hsort).2 (List.pairwise_cons.mp hdisj).2 b hb2

/-- C6: when there are no existing subnets the scan starts at the network
address of the parent; otherwise, for an allocation list sorted ascending by base
address and pairwise non-overlapping, the scan starts at one past the
highest address among the allocated blocks (the broadcast address of the
last block, plus one). -/
theorem scan_start_spec (vpc : Block) (existing : List Block)
    (hsort : List.Pairwise (fun a b => a.network ≤ b.network) existing)
    (hdisj : List.Pairwise (fun a b => Block.overlaps a b = false) existing) :
    (existing = [] → scan_start vpc existing = vpc.network) ∧
    (existing ≠ [] → ∃ m, m ∈ existing ∧
      (∀ b ∈ existing, b.broadcast ≤ m.broadcast) ∧
      scan_start vpc existing = m.broadcast + 1) := by
  constructor
  · intro he
    subst he
    rfl
  · intro hne
    have hsome : existing.getLast?.isSome := List.getLast?_isSome.mpr hne
    obtain ⟨m, hm⟩ := Option.isSome_iff_exists.mp hsome
    refine ⟨m, List.mem_of_getLast?_eq_some hm,
      broadcast_le_of_getLast existing m hm hsort hdisj, ?_⟩
    unfold scan_start find_last_ip
    rw [hm]

/-- Witness for the scan-start theorem at a concrete sorted, non-overlapping
allocation list. -/
theorem scan_start_spec_witness :
    ∃ m, m ∈ [exB0, exB1] ∧ (∀ b ∈ [exB0, exB1], b.broadcast ≤ m.broadcast) ∧
      scan_start exParent [exB0, exB1] = m.broadcast + 1 :=
  (scan_start_spec exParent [exB0, exB1] (by decide) (by decide)).2 (by decide)

/-- C10: `find_next_subnets` terminates on every input: the scan loop runs
at most `count` accepting iterations (each iteration either appends one
candidate or raises), so fuel `count` always yields a result. -/
theorem find_next_subnets_terminates (vpc : Block) (existing : List Block)
    (azs : List String) (np count : Nat) :
    (find_next_subnets vpc existing azs np count).isSome = true := by
  unfold find_next_subnets
  split
  · exact loopGo_total vpc azs np count count _ [] (by simp)
  · split
    · rfl
    · exact loopGo_total vpc azs np count count _ [] (by simp)

end SubnetFinder

